import Mathlib

/-!
# go-powerdns-client: the `Client` of `client.go`

A shallow embedding of `src/client.go`.  Go strings are Lean strings, a Go
`(value, error)` result is a pair of options (`none` is Go's `nil`), and a call
that can end in a run-time panic returns an `Outcome`.  Calls into external
packages (`net/http`, `encoding/json`, `github.com/miekg/dns`) are taken from an
environment `Env` of oracles: the code under study is what `client.go` does
around them.  Writes to standard error (`logger`, `fmt.Fprintf(os.Stderr, ..)`)
do not influence any returned value and are left out.
-/

set_option autoImplicit false
set_option linter.dupNamespace false

namespace PowerDNS

/-! ## Errors -/

/-- A Go `error` value.  `pkg` is one of the package-level `errors.New` values of
`client.go` lines 18-24, `fresh` an `errors.New` evaluated inside a function, and
`lib` an error handed back by an external package. -/
inductive Error where
  | pkg (msg : String)
  | fresh (msg : String)
  | lib (msg : String)
  deriving DecidableEq, Repr

/-- The `Error()` method: the message of an error. -/
def Error.Error : Error → String
  | .pkg m => m
  | .fresh m => m
  | .lib m => m

def ErrNoHttpAddress : Error := .pkg "No HTTP address specified"

def ErrNoDnsAddress : Error := .pkg "No DNS address specified"

def ErrInvalidResponse : Error := .pkg "Invalid HTTP response"

def ErrServiceNotFound : Error := .pkg "Service not found"

def ErrConflictingUUID : Error := .pkg "Conflicting UUID"

/-- The result of running a Go call: it returns a value or panics. -/
inductive Outcome (α : Type) where
  | ret (a : α)
  | panic (msg : String)
  deriving DecidableEq, Repr

/-! ## The client -/

/-- The `Client` struct (lines 27-35).  The handles `h *http.Client` and
`d *dns.Client` carry no data of their own; their behaviour is the `Env`. -/
structure Client where
  base : String
  secret : String
  basedns : String
  domain : String
  DNS : Bool
  deriving DecidableEq, Repr

namespace dns

/-- Modelled from the spec: `dns.IsFqdn` belongs to the external package
github.com/miekg/dns and is not under src/.  The spec calls a domain
fully qualified when it has "an explicit trailing root label", a trailing dot. -/
def IsFqdn (s : String) : Bool :=
  s.data.getLast? = some '.'

/-- Modelled from the spec: `dns.Fqdn` belongs to the external package
github.com/miekg/dns and is not under src/.  The spec says the domain "is
normalized to a fully-qualified form (trailing dot)": a name that is already
fully qualified is returned as it is, any other name gets a dot appended. -/
def Fqdn (s : String) : String :=
  if IsFqdn s then s else s ++ "."

end dns

/-- The constructor `NewClient` (lines 47-62). -/
def NewClient (base secret domain basedns : String) : Option Client × Option Error :=
  if base = "" then
    (none, some ErrNoHttpAddress)
  else if basedns = "" then
    (none, some ErrNoDnsAddress)
  else
    (some { base := base, basedns := basedns, domain := dns.Fqdn domain,
            secret := secret, DNS := false }, none)

/-- The method `joinUrl` (lines 401-403): `fmt.Sprintf("%s/%s", c.base, action)`. -/
def Client.joinUrl (c : Client) (action : String) : String :=
  c.base ++ "/" ++ action

/-! ## The HTTP side -/

namespace textproto

/-- The bytes `net/textproto` accepts in a header field name (RFC 7230 token
characters). -/
def validHeaderFieldByte (ch : Char) : Bool :=
  ch.isAlphanum || "!#$%&*+-.^_|~".data.contains ch || ch = Char.ofNat 39 || ch = Char.ofNat 96

/-- The rewriting loop of `CanonicalMIMEHeaderKey`: a letter is put in upper case
at the start and after a hyphen, in lower case elsewhere. -/
def canonicalLoop : Bool → List Char → List Char
  | _, [] => []
  | upper, ch :: rest =>
    let ch1 := if upper then ch.toUpper else ch.toLower
    ch1 :: canonicalLoop (ch1 = '-') rest

/-- The external `textproto.CanonicalMIMEHeaderKey`, as its documentation
describes it: a key with a byte that is not valid in a field name is returned
unchanged. -/
def CanonicalMIMEHeaderKey (s : String) : String :=
  if s.data.all validHeaderFieldByte then String.mk (canonicalLoop true s.data) else s

end textproto

namespace http

def StatusOK : Int := 200

def StatusCreated : Int := 201

def StatusBadRequest : Int := 400

def StatusNotFound : Int := 404

/-- The `http.Header` multimap, as the list of its (canonical key, value) pairs
in the order the values were added. -/
abbrev Header := List (String × String)

/-- The method `Header.Add`: the key is canonicalised and the value appended. -/
def Header.Add (h : Header) (key value : String) : Header :=
  h ++ [(textproto.CanonicalMIMEHeaderKey key, value)]

/-- The method `Header.Values`: all values stored under a key. -/
def Header.Values (h : Header) (key : String) : List String :=
  (h.filter (fun kv => kv.1 = textproto.CanonicalMIMEHeaderKey key)).map Prod.snd

/-- The method `Header.Get`: the first value stored under a key, or "". -/
def Header.Get (h : Header) (key : String) : String :=
  (Header.Values h key).headD ""

/-- The part of `http.Request` that `client.go` sets: method, URL text, header
and body (`none` is a nil `io.Reader`). -/
structure Request where
  Method : String
  URL : String
  Header : Header
  Body : Option String
  deriving DecidableEq, Repr

/-- The part of `http.Response` that `client.go` reads.  `Do` never returns a
nil body together with a nil error, so the body is a string. -/
structure Response where
  StatusCode : Int
  Body : String
  deriving DecidableEq, Repr

end http

namespace msg

/-- Modelled from the spec: `msg.Service` belongs to the external package
github.com/skynetservices/skydns1/msg and is not under src/.  The spec's
ServiceRecord has the fields "name (string), host (string), port (unsigned
16-bit), TTL (unsigned 32-bit seconds), version (string)". -/
structure Service where
  Name : String
  Version : String
  Host : String
  Port : Nat
  TTL : Nat
  deriving DecidableEq, Repr

end msg

namespace response

/-- Modelled from the spec: the type `response.Error` is used by `AddZone` and is
not under src/.  The spec gives "the conflict-error envelope" as an object with
the one key "error" holding a string; `AddZone` reads its field `Error`. -/
structure Error where
  Error : String
  deriving DecidableEq, Repr

/-- The struct `ZoneCollectionRecord` of `response/zone.go`. -/
structure ZoneCollectionRecord where
  Name : String
  «Type» : String
  Ttl : Int
  Disabled : Bool
  Content : String
  deriving DecidableEq, Repr

/-- The struct `ZoneCollection` of `response/zone.go`.  A slice is a list; a nil
slice and an empty one are both `[]`. -/
structure ZoneCollection where
  Id : String := ""
  Name : String := ""
  «Type» : String := ""
  Url : String := ""
  Kind : String := ""
  Serial : Int := 0
  Notified_serial : Int := 0
  Masters : List String := []
  Dnssec : Bool := false
  Nsec3param : String := ""
  Nsec3narrow : Bool := false
  Presigned : Bool := false
  Soa_edit : String := ""
  Soa_edit_api : String := ""
  Account : String := ""
  Nameservers : List String := []
  Servers : List String := []
  Recursion_desired : Bool := false
  Records : List ZoneCollectionRecord := []
  Comments : List String := []
  deriving DecidableEq, Repr

end response

/-! ## The DNS side -/

namespace dns

def TypeSRV : Nat := 33

def ClassINET : Nat := 1

/-- The struct `dns.RR_Header`: owner name, type, class and TTL of a record. -/
structure RR_Header where
  Name : String
  Rrtype : Nat
  Class : Nat
  Ttl : Nat
  deriving DecidableEq, Repr

/-- A resource record `dns.RR`, by its dynamic type: `*dns.SRV` with its fields,
or a record of any other type. -/
inductive RR where
  | SRV (Hdr : RR_Header) (Priority Weight Port : Nat) (Target : String)
  | other (Hdr : RR_Header)
  deriving DecidableEq, Repr

/-- The method `RR.Header`. -/
def RR.Header : RR → RR_Header
  | .SRV h _ _ _ _ => h
  | .other h => h

structure Question where
  Name : String
  Qtype : Nat
  Qclass : Nat
  deriving DecidableEq, Repr

/-- The sections of `dns.Msg` that `client.go` writes and reads. -/
structure Msg where
  Question : List Question
  Answer : List RR
  deriving DecidableEq, Repr

/-- The method `Msg.SetQuestion`: one question of class INET. -/
def Msg.SetQuestion (m : Msg) (z : String) (t : Nat) : Msg :=
  { m with Question := [{ Name := z, Qtype := t, Qclass := ClassINET }] }

end dns

/-! ## The environment -/

/-- What the external packages answer.  An `Except.error` carries the message of
the error the package returns. -/
structure Env where
  /-- Whether `http.NewRequest` rejects a method and URL (`some msg`) or accepts them. -/
  requestError : String → String → Option String
  /-- The transport exchange `(*http.Client).Do`. -/
  Do : http.Request → Except String http.Response
  /-- The call `json.Marshal` on a zone. -/
  marshalZone : response.ZoneCollection → Except String String
  /-- The call `json.NewDecoder(body).Decode(&s)` with `s` a `*msg.Service`; `none` is a
  pointer left nil (the JSON text `null`). -/
  decodeService : String → Except String (Option msg.Service)
  /-- The same with `s` a `*response.Error`. -/
  decodeError : String → Except String (Option response.Error)
  /-- The same with `s` a `*response.ZoneCollection`. -/
  decodeZone : String → Except String (Option response.ZoneCollection)
  /-- The exchange `(*dns.Client).Exchange` of a message with a server address. -/
  Exchange : dns.Msg → String → Except String dns.Msg

/-- The external `http.NewRequest`: a request with an empty header, or no request and an
error.  An empty method stands for GET. -/
def http.NewRequest (env : Env) (method url : String) (body : Option String) :
    Option http.Request × Option Error :=
  match env.requestError method url with
  | some m => (none, some (.lib m))
  | none =>
    (some { Method := if method = "" then "GET" else method, URL := url,
            Header := [], Body := body }, none)

/-- The method `newRequest` (lines 405-412).  The header is written before `err` is looked
at: with a nil `req` the field access `req.Header` panics. -/
def Client.newRequest (env : Env) (c : Client) (method url : String) (body : Option String) :
    Outcome (Option http.Request × Option Error) :=
  match http.NewRequest env method url body with
  | (none, _) => .panic "invalid memory address or nil pointer dereference"
  | (some req, err) =>
    let req1 := { req with Header := req.Header.Add "X-API-Key" "SOMEKEY" }
    let req2 :=
      if c.secret ≠ "" then { req1 with Header := req1.Header.Add "Authorization" c.secret }
      else req1
    .ret (some req2, err)

/-- The call `c.h.Do(req)` on the request pointer a caller holds; `Do` reads the
fields of the request, so a nil request panics. -/
def Client.doRequest (env : Env) (req : Option http.Request) :
    Outcome (Except Error http.Response) :=
  match req with
  | none => .panic "invalid memory address or nil pointer dereference"
  | some r =>
    match env.Do r with
    | .error e => .ret (.error (.lib e))
    | .ok resp => .ret (.ok resp)

/-- The method `AddZone` (lines 158-208).  `server` is `none` for a nil interface value and
`some s` for the string `s`. -/
def Client.AddZone (env : Env) (c : Client) (zone : String) (server : Option String) :
    Outcome (Option response.ZoneCollection × Option Error) :=
  let server1 := server.getD "localhost"
  match env.marshalZone { Name := zone, Kind := "Native", Masters := [], Nameservers := [] } with
  | .error e => .ret (none, some (.lib e))
  | .ok jsonZone =>
    match c.newRequest env "POST" (c.joinUrl ("servers/" ++ server1 ++ "/zones")) (some jsonZone) with
    | .panic m => .panic m
    | .ret (_, some err) => .ret (none, some err)
    | .ret (req, none) =>
      match Client.doRequest env req with
      | .panic m => .panic m
      | .ret (.error err) => .ret (none, some err)
      | .ret (.ok resp) =>
        if resp.StatusCode = http.StatusOK ∨ resp.StatusCode = http.StatusCreated then
          match env.decodeZone resp.Body with
          | .error e => .ret (none, some (.lib e))
          | .ok s => .ret (s, none)
        else if resp.StatusCode = http.StatusBadRequest then
          .ret (none, some ErrInvalidResponse)
        else if resp.StatusCode = 422 then
          match env.decodeError resp.Body with
          | .error _ => .ret (none, some (.fresh "Resource already exists"))
          | .ok none => .panic "invalid memory address or nil pointer dereference"
          | .ok (some s) =>
            let errorText := if s.Error ≠ "" then s.Error else "Resource already exists"
            .ret (none, some (.fresh errorText))
        else
          .ret (none, some ErrInvalidResponse)

/-- The method `Delete` (lines 222-236). -/
def Client.Delete (env : Env) (c : Client) (uuid : String) : Outcome (Option Error) :=
  match c.newRequest env "DELETE" (c.joinUrl uuid) none with
  | .panic m => .panic m
  | .ret (_, some err) => .ret (some err)
  | .ret (req, none) =>
    match Client.doRequest env req with
    | .panic m => .panic m
    | .ret (.error err) => .ret (some err)
    | .ret (.ok _) => .ret none

/-- The method `Get` (lines 238-265). -/
def Client.Get (env : Env) (c : Client) (uuid : String) :
    Outcome (Option msg.Service × Option Error) :=
  match c.newRequest env "GET" (c.joinUrl uuid) none with
  | .panic m => .panic m
  | .ret (_, some err) => .ret (none, some err)
  | .ret (req, none) =>
    match Client.doRequest env req with
    | .panic m => .panic m
    | .ret (.error err) => .ret (none, some err)
    | .ret (.ok resp) =>
      if resp.StatusCode = http.StatusOK then
        match env.decodeService resp.Body with
        | .error e => .ret (none, some (.lib e))
        | .ok s => .ret (s, none)
      else if resp.StatusCode = http.StatusNotFound then
        .ret (none, some ErrServiceNotFound)
      else
        .ret (none, some ErrInvalidResponse)

/-- The method `Update` (lines 267-283); the body is the text `fmt.Sprintf` makes of the
format with the key TTL and the verb `%d`. -/
def Client.Update (env : Env) (c : Client) (uuid : String) (ttl : Nat) : Outcome (Option Error) :=
  let b := "\x7b\"TTL\":" ++ toString ttl ++ "\x7d"
  match c.newRequest env "PATCH" (c.joinUrl uuid) (some b) with
  | .panic m => .panic m
  | .ret (_, some err) => .ret (some err)
  | .ret (req, none) =>
    match Client.doRequest env req with
    | .panic m => .panic m
    | .ret (.error err) => .ret (some err)
    | .ret (.ok _) => .ret none

/-- The method `newRequestDNS` (lines 414-422). -/
def Client.newRequestDNS (c : Client) (qname : String) (qtype : Nat) : dns.Msg × Option Error :=
  let m : dns.Msg := { Question := [], Answer := [] }
  if qname = "" then
    (m.SetQuestion c.domain qtype, none)
  else
    (m.SetQuestion (qname ++ "." ++ c.domain) qtype, none)

/-- The record built for an SRV answer (lines 321-327); `strconv.Itoa` of a
number is its decimal form. -/
def srvService (Hdr : dns.RR_Header) (Priority Weight Port : Nat) (Target : String) :
    msg.Service :=
  { Name := Hdr.Name ++ " (Priority: " ++ toString Priority ++ ", " ++ "Weight: " ++
      toString Weight ++ ")",
    Host := Target, Port := Port, TTL := Hdr.Ttl, Version := "" }

/-- The loop of lines 319-329 over the pairs `(i, r)` of `range resp.Answer`:
`s[i]` is assigned when `r` is a `*dns.SRV` and left alone otherwise. -/
def answerLoop : List (Nat × dns.RR) → List (Option msg.Service) → List (Option msg.Service)
  | [], s => s
  | (i, .SRV hdr p w port target) :: rest, s =>
    answerLoop rest (s.set i (some (srvService hdr p w port target)))
  | (_, .other _) :: rest, s => answerLoop rest s

/-- The method `GetAllServicesDNS` (lines 308-331).  The result slice holds pointers:
`none` is a nil entry.  A nil slice is `[]`. -/
def Client.GetAllServicesDNS (env : Env) (c : Client) :
    List (Option msg.Service) × Option Error :=
  match c.newRequestDNS "" dns.TypeSRV with
  | (_, some err) => ([], some err)
  | (req, none) =>
    match env.Exchange req c.basedns with
    | .error e => ([], some (.lib e))
    | .ok resp =>
      let s : List (Option msg.Service) := List.replicate resp.Answer.length none
      (answerLoop resp.Answer.enum s, none)

/-- What an answer leaves in its slot of the result: the record of an SRV answer,
nothing for any other answer. -/
def answerEntry : dns.RR → Option msg.Service
  | .SRV hdr p w port target => some (srvService hdr p w port target)
  | .other _ => none

/-! ## Test doubles

Concrete environments, used to run the definitions on concrete inputs. -/

/-- The test `ishex` of `net/url`. -/
def ishex (ch : Char) : Bool :=
  ch.isDigit || ('a' ≤ ch && ch ≤ 'f') || ('A' ≤ ch && ch ≤ 'F')

/-- Whether a text has a percent sign that is not followed by two hexadecimal
digits, which `url.Parse` reports as an invalid URL escape. -/
def badEscape : List Char → Bool
  | [] => false
  | ch :: rest =>
    if ch = '%' then
      match rest with
      | a :: b :: _ => !(ishex a && ishex b) || badEscape rest
      | _ => true
    else badEscape rest

/-- Reads the characters of a JSON string up to its closing quote; a string with
an escape is not handled. -/
def readString : List Char → Option (List Char × List Char)
  | [] => none
  | ch :: rest =>
    if ch = '"' then some ([], rest)
    else if ch = Char.ofNat 92 then none
    else (readString rest).map (fun r => (ch :: r.1, r.2))

/-- A decoder for error envelopes: it accepts the text `null` and an object with
the single key "error" written without white space, and rejects all else. -/
def sampleDecodeError (body : String) : Except String (Option response.Error) :=
  if body = "null" then .ok none
  else if "\x7b\"error\":\"".data.isPrefixOf body.data then
    match readString (body.data.drop 10) with
    | some (m, rest) =>
      if rest = "\x7d".data then .ok (some { Error := String.mk m })
      else .error "invalid character"
    | none => .error "invalid character"
  else .error "invalid character"

def sampleService : msg.Service :=
  { Name := "web", Version := "1.0.0", Host := "web1.example.com", Port := 9000, TTL := 4000 }

def sampleServiceJSON : String :=
  "\x7b\"Name\":\"web\",\"Version\":\"1.0.0\",\"Host\":\"web1.example.com\",\"Port\":9000,\"TTL\":4000\x7d"

/-- A decoder for services that knows one document and `null`. -/
def sampleDecodeService (body : String) : Except String (Option msg.Service) :=
  if body = sampleServiceJSON then .ok (some sampleService)
  else if body = "null" then .ok none
  else .error "invalid character"

/-- An environment in which every HTTP exchange is answered with the given status
and body and every DNS exchange with the given answer section.  A request is
rejected when its URL has a malformed percent escape.  The stand-in for
`json.Marshal` writes the name and kind of a zone only. -/
def fixture (status : Int) (body : String) (answer : List dns.RR) : Env :=
  { requestError := fun _ url => if badEscape url.data then some "invalid URL escape" else none
    Do := fun _ => .ok { StatusCode := status, Body := body }
    marshalZone := fun z => .ok ("\x7b\"name\":\"" ++ z.Name ++ "\",\"kind\":\"" ++ z.Kind ++ "\"\x7d")
    decodeService := sampleDecodeService
    decodeError := sampleDecodeError
    decodeZone := fun _ => .error "invalid character"
    Exchange := fun _ _ => .ok { Question := [], Answer := answer } }

/-- A client as `NewClient` makes it. -/
def sampleClient : Client :=
  { base := "http://127.0.0.1:8081", secret := "", basedns := "127.0.0.1:53",
    domain := "skydns.local.", DNS := false }

/-! ## Construction -/

theorem dns.isFqdn_append_dot (s : String) : dns.IsFqdn (s ++ ".") = true := by
  simp [dns.IsFqdn, String.data_append]

theorem dns.isFqdn_fqdn (s : String) : dns.IsFqdn (dns.Fqdn s) = true := by
  unfold dns.Fqdn
  split
  · assumption
  · exact dns.isFqdn_append_dot s

theorem dns.fqdn_idem (s : String) : dns.Fqdn (dns.Fqdn s) = dns.Fqdn s := by
  have h := dns.isFqdn_fqdn s
  generalize dns.Fqdn s = t at h ⊢
  simp [dns.Fqdn, h]

/-- C1: `NewClient` fails exactly when `base` or `basedns` is empty: an empty
`base` gives no client and `ErrNoHttpAddress` whatever `basedns` is, a non-empty
`base` with an empty `basedns` gives no client and `ErrNoDnsAddress`, the two
errors differ, and every other input gives a client and no error. -/
theorem NewClient_fails_iff (base secret domain basedns : String) :
    ((NewClient base secret domain basedns).2 ≠ none ↔ (base = "" ∨ basedns = "")) ∧
    (base = "" → NewClient base secret domain basedns = (none, some ErrNoHttpAddress)) ∧
    (base ≠ "" → basedns = "" →
      NewClient base secret domain basedns = (none, some ErrNoDnsAddress)) ∧
    ErrNoHttpAddress ≠ ErrNoDnsAddress ∧
    (base ≠ "" → basedns ≠ "" →
      ∃ c, NewClient base secret domain basedns = (some c, none)) := by
  refine ⟨?_, ?_, ?_, by decide, ?_⟩
  · unfold NewClient
    by_cases hb : base = "" <;> by_cases hd : basedns = "" <;> simp [hb, hd]
  · intro hb
    simp [NewClient, hb]
  · intro hb hd
    simp [NewClient, hb, hd]
  · intro hb hd
    exact ⟨{ base := base, basedns := basedns, domain := dns.Fqdn domain,
             secret := secret, DNS := false }, by simp [NewClient, hb, hd]⟩

/-- C2: with non-empty `base` and `basedns`, `NewClient` succeeds; the stored
domain ends with a dot, is the input when the input already ended with a dot and
the input followed by "." otherwise, normalising it again changes nothing, and
`base`, `basedns` and `secret` are stored unchanged. -/
theorem NewClient_stores_fqdn (base secret domain basedns : String)
    (hb : base ≠ "") (hd : basedns ≠ "") :
    ∃ c, NewClient base secret domain basedns = (some c, none) ∧
      c.domain.data.getLast? = some '.' ∧
      (domain.data.getLast? = some '.' → c.domain = domain) ∧
      (domain.data.getLast? ≠ some '.' → c.domain = domain ++ ".") ∧
      dns.Fqdn c.domain = c.domain ∧
      c.base = base ∧ c.basedns = basedns ∧ c.secret = secret := by
  refine ⟨{ base := base, basedns := basedns, domain := dns.Fqdn domain,
            secret := secret, DNS := false }, by simp [NewClient, hb, hd],
          ?_, ?_, ?_, ?_, rfl, rfl, rfl⟩
  · simpa [dns.IsFqdn] using dns.isFqdn_fqdn domain
  · intro h
    simp [dns.Fqdn, dns.IsFqdn, h]
  · intro h
    simp [dns.Fqdn, dns.IsFqdn, h]
  · exact dns.fqdn_idem domain

theorem NewClient_stores_fqdn_witness :
    "http://127.0.0.1:8081" ≠ "" ∧ "127.0.0.1:53" ≠ "" ∧ ∃ c, NewClient "http://127.0.0.1:8081" "" "skydns.local" "127.0.0.1:53" = (some c, none) ∧
      c.domain.data.getLast? = some '.' ∧
      ("skydns.local".data.getLast? = some '.' → c.domain = "skydns.local") ∧
      ("skydns.local".data.getLast? ≠ some '.' → c.domain = "skydns.local" ++ ".") ∧
      dns.Fqdn c.domain = c.domain ∧
      c.base = "http://127.0.0.1:8081" ∧ c.basedns = "127.0.0.1:53" ∧ c.secret = "" :=
  ⟨by decide, by decide,
    NewClient_stores_fqdn "http://127.0.0.1:8081" "" "skydns.local" "127.0.0.1:53"
      (by decide) (by decide)⟩

/-! ## Building requests -/

theorem newRequest_of_accepted (env : Env) (c : Client) (method url : String)
    (body : Option String) (h : env.requestError method url = none) :
    c.newRequest env method url body =
      .ret (some { Method := if method = "" then "GET" else method, URL := url,
                   Header :=
                     if c.secret ≠ "" then
                       [("X-Api-Key", "SOMEKEY"), ("Authorization", c.secret)]
                     else [("X-Api-Key", "SOMEKEY")],
                   Body := body }, none) := by
  have hx : textproto.CanonicalMIMEHeaderKey "X-API-Key" = "X-Api-Key" := by decide
  have ha : textproto.CanonicalMIMEHeaderKey "Authorization" = "Authorization" := by decide
  unfold Client.newRequest http.NewRequest
  rw [h]
  by_cases hs : c.secret = "" <;> simp [hs, http.Header.Add, hx, ha]

theorem newRequest_of_rejected (env : Env) (c : Client) (method url m : String)
    (body : Option String) (h : env.requestError method url = some m) :
    c.newRequest env method url body =
      .panic "invalid memory address or nil pointer dereference" := by
  unfold Client.newRequest http.NewRequest
  rw [h]

/-- C8: when `http.NewRequest` accepts the method and URL, `newRequest` returns a
request and no error; the request carries the API-key header with the value
SOMEKEY, and it carries an Authorization header exactly when the secret is not
empty, its only value then being the secret. -/
theorem newRequest_headers (env : Env) (c : Client) (method url : String)
    (body : Option String) (h : env.requestError method url = none) :
    ∃ req, c.newRequest env method url body = .ret (some req, none) ∧
      req.Header.Get "X-API-Key" = "SOMEKEY" ∧
      req.Header.Values "X-API-Key" = ["SOMEKEY"] ∧
      (req.Header.Values "Authorization" ≠ [] ↔ c.secret ≠ "") ∧
      (c.secret ≠ "" → req.Header.Values "Authorization" = [c.secret]) := by
  have hx : textproto.CanonicalMIMEHeaderKey "X-API-Key" = "X-Api-Key" := by decide
  have ha : textproto.CanonicalMIMEHeaderKey "Authorization" = "Authorization" := by decide
  refine ⟨_, newRequest_of_accepted env c method url body h, ?_⟩
  by_cases hs : c.secret = "" <;>
    simp [hs, http.Header.Get, http.Header.Values, hx, ha]

theorem newRequest_headers_witness :
    (fixture 200 "" []).requestError "GET" "http://127.0.0.1:8081/abc" = none ∧
    ∃ req, ({ sampleClient with secret := "s3cret" }).newRequest (fixture 200 "" []) "GET"
        "http://127.0.0.1:8081/abc" none = .ret (some req, none) ∧
      req.Header.Get "X-API-Key" = "SOMEKEY" ∧
      req.Header.Values "X-API-Key" = ["SOMEKEY"] ∧
      (req.Header.Values "Authorization" ≠ [] ↔
        ({ sampleClient with secret := "s3cret" }).secret ≠ "") ∧
      (({ sampleClient with secret := "s3cret" }).secret ≠ "" →
        req.Header.Values "Authorization" = [({ sampleClient with secret := "s3cret" }).secret]) :=
  ⟨by decide,
    newRequest_headers (fixture 200 "" []) { sampleClient with secret := "s3cret" } "GET"
      "http://127.0.0.1:8081/abc" none (by decide)⟩

/-- C9, as stated, fails: on a client with an empty base, building the request
for GET servers gives a request for the URL "/servers" and no error, not the
error `ErrNoHttpAddress`. -/
theorem newRequest_empty_base_counterexample :
    ({ sampleClient with base := "" }).newRequest (fixture 200 "" []) "GET"
        (({ sampleClient with base := "" }).joinUrl "servers") (some "") =
      .ret (some { Method := "GET", URL := "/servers",
                   Header := [("X-Api-Key", "SOMEKEY")], Body := some "" }, none) ∧
    ({ sampleClient with base := "" }).newRequest (fixture 200 "" []) "GET"
        (({ sampleClient with base := "" }).joinUrl "servers") (some "") ≠
      .ret (none, some ErrNoHttpAddress) := by
  decide

/-- C9, amended: on a client with an empty base, for every method, path and body,
`joinUrl` gives "/" followed by the path and `newRequest` never returns the error
`ErrNoHttpAddress`, with or without a request; when `http.NewRequest` accepts the
method and that URL the request is built for that URL with no error; the empty
base is refused with `ErrNoHttpAddress` by `NewClient` alone. -/
theorem newRequest_empty_base (env : Env) (c : Client) (method path : String)
    (body : Option String) (hbase : c.base = "") :
    c.joinUrl path = "/" ++ path ∧
    (∀ r, c.newRequest env method (c.joinUrl path) body ≠ .ret (r, some ErrNoHttpAddress)) ∧
    (env.requestError method ("/" ++ path) = none →
      ∃ req, c.newRequest env method (c.joinUrl path) body = .ret (some req, none) ∧
        req.URL = "/" ++ path) ∧
    (∀ secret domain basedns,
      NewClient c.base secret domain basedns = (none, some ErrNoHttpAddress)) := by
  have hj : c.joinUrl path = "/" ++ path := by simp [Client.joinUrl, hbase]
  rw [hj]
  refine ⟨rfl, ?_, ?_, ?_⟩
  · intro r
    cases hre : env.requestError method ("/" ++ path) with
    | none =>
      rw [newRequest_of_accepted env c method _ body hre]
      simp
    | some m =>
      rw [newRequest_of_rejected env c method _ m body hre]
      simp
  · intro h
    rw [newRequest_of_accepted env c method _ body h]
    exact ⟨_, rfl, rfl⟩
  · intro secret domain basedns
    simp [NewClient, hbase]

theorem newRequest_empty_base_witness :
    ({ sampleClient with base := "" }).base = "" ∧
    ({ sampleClient with base := "" }).joinUrl "servers" = "/" ++ "servers" ∧
    (∀ r, ({ sampleClient with base := "" }).newRequest (fixture 200 "" []) "GET"
        (({ sampleClient with base := "" }).joinUrl "servers") none ≠
      .ret (r, some ErrNoHttpAddress)) ∧
    ((fixture 200 "" []).requestError "GET" ("/" ++ "servers") = none →
      ∃ req, ({ sampleClient with base := "" }).newRequest (fixture 200 "" []) "GET"
        (({ sampleClient with base := "" }).joinUrl "servers") none = .ret (some req, none) ∧
        req.URL = "/" ++ "servers") ∧
    (∀ secret domain basedns,
      NewClient ({ sampleClient with base := "" }).base secret domain basedns =
        (none, some ErrNoHttpAddress)) :=
  ⟨rfl,
    newRequest_empty_base (fixture 200 "" []) { sampleClient with base := "" } "GET" "servers"
      none rfl⟩

/-- C10, on the code: with the uuid "%zz" the joined URL has a malformed percent
escape, `http.NewRequest` returns no request, and `newRequest` panics on the nil
request, so `Get`, `Delete`, `Update` and `AddZone` panic instead of returning the
error. -/
theorem newRequest_failure_panics :
    (fixture 200 "" []).requestError "GET" (sampleClient.joinUrl "%zz") =
      some "invalid URL escape" ∧
    sampleClient.newRequest (fixture 200 "" []) "GET" (sampleClient.joinUrl "%zz") none =
      .panic "invalid memory address or nil pointer dereference" ∧
    sampleClient.Get (fixture 200 "" []) "%zz" =
      .panic "invalid memory address or nil pointer dereference" ∧
    sampleClient.Delete (fixture 200 "" []) "%zz" =
      .panic "invalid memory address or nil pointer dereference" ∧
    sampleClient.Update (fixture 200 "" []) "%zz" 30 =
      .panic "invalid memory address or nil pointer dereference" ∧
    sampleClient.AddZone (fixture 200 "" []) "example.org" (some "%zz") =
      .panic "invalid memory address or nil pointer dereference" := by
  decide

/-! ## Reading HTTP responses -/

/-- C3: when the request of `Get` is built and the transport delivers a response,
status 404 gives no record and `ErrServiceNotFound`, a status other than 200 and
404 gives no record and `ErrInvalidResponse`, and status 200 gives the record
decoded from the body with no error, or the decode error and no record. -/
theorem Get_classifies_response (env : Env) (c : Client) (uuid : String)
    (req : http.Request) (resp : http.Response)
    (hreq : c.newRequest env "GET" (c.joinUrl uuid) none = .ret (some req, none))
    (hdo : env.Do req = .ok resp) :
    (resp.StatusCode = 404 → c.Get env uuid = .ret (none, some ErrServiceNotFound)) ∧
    (resp.StatusCode ≠ 200 → resp.StatusCode ≠ 404 →
      c.Get env uuid = .ret (none, some ErrInvalidResponse)) ∧
    (∀ s, resp.StatusCode = 200 → env.decodeService resp.Body = .ok (some s) →
      c.Get env uuid = .ret (some s, none)) ∧
    (∀ e, resp.StatusCode = 200 → env.decodeService resp.Body = .error e →
      c.Get env uuid = .ret (none, some (.lib e))) := by
  refine ⟨?_, ?_, ?_, ?_⟩
  · intro h
    simp [Client.Get, hreq, Client.doRequest, hdo, h, http.StatusOK, http.StatusNotFound]
  · intro h1 h2
    simp [Client.Get, hreq, Client.doRequest, hdo, h1, h2, http.StatusOK, http.StatusNotFound]
  · intro s h hdec
    simp [Client.Get, hreq, Client.doRequest, hdo, h, hdec, http.StatusOK]
  · intro e h hdec
    simp [Client.Get, hreq, Client.doRequest, hdo, h, hdec, http.StatusOK]

theorem Get_classifies_response_witness :
    sampleClient.newRequest (fixture 200 sampleServiceJSON []) "GET"
        (sampleClient.joinUrl "1001") none =
      .ret (some { Method := "GET", URL := "http://127.0.0.1:8081/1001",
                   Header := [("X-Api-Key", "SOMEKEY")], Body := none }, none) ∧
    (fixture 200 sampleServiceJSON []).Do
        { Method := "GET", URL := "http://127.0.0.1:8081/1001",
          Header := [("X-Api-Key", "SOMEKEY")], Body := none } =
      .ok { StatusCode := 200, Body := sampleServiceJSON } ∧
    sampleClient.Get (fixture 200 sampleServiceJSON []) "1001" = .ret (some sampleService, none) :=
  ⟨by decide, rfl,
    (Get_classifies_response (fixture 200 sampleServiceJSON []) sampleClient "1001"
      { Method := "GET", URL := "http://127.0.0.1:8081/1001",
        Header := [("X-Api-Key", "SOMEKEY")], Body := none }
      { StatusCode := 200, Body := sampleServiceJSON }
      (by decide) rfl).2.2.1 sampleService rfl rfl⟩

/-- C4, as stated, fails: for status 422 with a body that is not JSON the message
of the error `AddZone` returns is not "resource already exists". -/
theorem AddZone_fallback_counterexample :
    ¬ ∃ e, sampleClient.AddZone (fixture 422 "<html>" []) "example.org" none =
        .ret (none, some e) ∧ e.Error = "resource already exists" := by
  rintro ⟨e, h, he⟩
  have hrun : sampleClient.AddZone (fixture 422 "<html>" []) "example.org" none =
      .ret (none, some (.fresh "Resource already exists")) := by decide
  rw [hrun] at h
  injection h with h
  injection h with _ h
  injection h with h
  subst h
  revert he
  decide

/-- C4, amended: when the request of `AddZone` is built and the response has
status 422, a body that decodes to an envelope with a non-empty error string `m`
gives no zone and an error with the message `m`, and a body that does not decode
gives no zone and an error with the message "Resource already exists". -/
theorem AddZone_conflict_message (env : Env) (c : Client) (zone jsonZone : String)
    (server : Option String) (req : http.Request) (resp : http.Response)
    (hjson : env.marshalZone
      { Name := zone, Kind := "Native", Masters := [], Nameservers := [] } = .ok jsonZone)
    (hreq : c.newRequest env "POST"
      (c.joinUrl ("servers/" ++ server.getD "localhost" ++ "/zones")) (some jsonZone) =
        .ret (some req, none))
    (hdo : env.Do req = .ok resp) (hstatus : resp.StatusCode = 422) :
    (∀ m, env.decodeError resp.Body = .ok (some { Error := m }) → m ≠ "" →
      ∃ e, c.AddZone env zone server = .ret (none, some e) ∧ e.Error = m) ∧
    (∀ d, env.decodeError resp.Body = .error d →
      ∃ e, c.AddZone env zone server = .ret (none, some e) ∧
        e.Error = "Resource already exists") := by
  refine ⟨?_, ?_⟩
  · intro m hdec hm
    refine ⟨.fresh m, ?_, rfl⟩
    simp [Client.AddZone, hjson, hreq, Client.doRequest, hdo, hstatus, hdec, hm,
      http.StatusOK, http.StatusCreated, http.StatusBadRequest]
  · intro d hdec
    refine ⟨.fresh "Resource already exists", ?_, rfl⟩
    simp [Client.AddZone, hjson, hreq, Client.doRequest, hdo, hstatus, hdec,
      http.StatusOK, http.StatusCreated, http.StatusBadRequest]

theorem AddZone_conflict_message_witness :
    ∃ e, sampleClient.AddZone (fixture 422 "\x7b\"error\":\"uuid conflict\"\x7d" [])
        "example.org" none = .ret (none, some e) ∧ e.Error = "uuid conflict" :=
  (AddZone_conflict_message (fixture 422 "\x7b\"error\":\"uuid conflict\"\x7d" []) sampleClient
    "example.org" "\x7b\"name\":\"example.org\",\"kind\":\"Native\"\x7d" none
    { Method := "POST", URL := "http://127.0.0.1:8081/servers/localhost/zones",
      Header := [("X-Api-Key", "SOMEKEY")],
      Body := some "\x7b\"name\":\"example.org\",\"kind\":\"Native\"\x7d" }
    { StatusCode := 422, Body := "\x7b\"error\":\"uuid conflict\"\x7d" }
    rfl (by decide) rfl rfl).1 "uuid conflict" rfl (by decide)

/-- C5: when the request is built and the transport exchange succeeds, `Delete`
and `Update` return no error, whatever the status and body of the response. -/
theorem Delete_Update_ignore_response (env : Env) (c : Client) (uuid : String) (ttl : Nat) :
    (∀ req resp, c.newRequest env "DELETE" (c.joinUrl uuid) none = .ret (some req, none) →
      env.Do req = .ok resp → c.Delete env uuid = .ret none) ∧
    (∀ req resp,
      c.newRequest env "PATCH" (c.joinUrl uuid)
        (some ("\x7b\"TTL\":" ++ toString ttl ++ "\x7d")) = .ret (some req, none) →
      env.Do req = .ok resp → c.Update env uuid ttl = .ret none) := by
  refine ⟨?_, ?_⟩
  · intro req resp hreq hdo
    simp [Client.Delete, hreq, Client.doRequest, hdo]
  · intro req resp hreq hdo
    simp [Client.Update, hreq, Client.doRequest, hdo]

theorem Delete_Update_ignore_response_witness :
    sampleClient.Delete (fixture 500 "Internal Server Error" []) "1001" = .ret none ∧
    sampleClient.Update (fixture 500 "Internal Server Error" []) "1001" 30 = .ret none :=
  ⟨(Delete_Update_ignore_response (fixture 500 "Internal Server Error" []) sampleClient
      "1001" 30).1
      { Method := "DELETE", URL := "http://127.0.0.1:8081/1001",
        Header := [("X-Api-Key", "SOMEKEY")], Body := none }
      { StatusCode := 500, Body := "Internal Server Error" } (by decide) rfl,
   (Delete_Update_ignore_response (fixture 500 "Internal Server Error" []) sampleClient
      "1001" 30).2
      { Method := "PATCH", URL := "http://127.0.0.1:8081/1001",
        Header := [("X-Api-Key", "SOMEKEY")], Body := some "\x7b\"TTL\":30\x7d" }
      { StatusCode := 500, Body := "Internal Server Error" } (by decide) rfl⟩

/-! ## Reading DNS responses -/

theorem answerLoop_enumFrom (l : List dns.RR) (pre : List (Option msg.Service)) :
    answerLoop (l.enumFrom pre.length) (pre ++ List.replicate l.length none) =
      pre ++ l.map answerEntry := by
  induction l generalizing pre with
  | nil => simp [answerLoop]
  | cons r l ih =>
    have hlen : (pre ++ [answerEntry r]).length = pre.length + 1 := by simp
    have key := ih (pre ++ [answerEntry r])
    rw [hlen] at key
    cases r with
    | SRV hdr p w port target =>
      simp only [List.enumFrom_cons, answerLoop, List.length_cons, List.replicate_succ,
        List.map_cons]
      have hset : (pre ++ none :: List.replicate l.length none).set pre.length
          (some (srvService hdr p w port target)) =
          (pre ++ [answerEntry (.SRV hdr p w port target)]) ++
            List.replicate l.length none := by
        simp [answerEntry, List.set_append]
      rw [hset, key]
      simp
    | other hdr =>
      simp only [List.enumFrom_cons, answerLoop, List.length_cons, List.replicate_succ,
        List.map_cons]
      have hsame : pre ++ none :: List.replicate l.length none =
          (pre ++ [answerEntry (.other hdr)]) ++ List.replicate l.length none := by
        simp [answerEntry]
      rw [hsame, key]
      simp

theorem answerLoop_eq_map (l : List dns.RR) :
    answerLoop l.enum (List.replicate l.length none) = l.map answerEntry := by
  simpa [List.enum] using answerLoop_enumFrom l []

theorem GetAllServicesDNS_of_exchange (env : Env) (c : Client) (resp : dns.Msg)
    (h : env.Exchange (c.newRequestDNS "" dns.TypeSRV).1 c.basedns = .ok resp) :
    c.GetAllServicesDNS env = (resp.Answer.map answerEntry, none) := by
  have hq : c.newRequestDNS "" dns.TypeSRV =
      ((c.newRequestDNS "" dns.TypeSRV).1, none) := by
    simp [Client.newRequestDNS]
  unfold Client.GetAllServicesDNS
  rw [hq]
  simp only [h]
  rw [answerLoop_eq_map]

/-- C6, on the code: for the answer section CNAME, SRV the result has two
entries, a nil one for the CNAME answer and the record of the SRV answer; for an
answer section with one CNAME answer and no SRV answer the result is one nil
entry, not the empty sequence. -/
theorem GetAllServicesDNS_keeps_nil_entries :
    sampleClient.GetAllServicesDNS
        (fixture 200 "" [.other ⟨"svc.skydns.local.", 5, 1, 30⟩,
          .SRV ⟨"svc", 33, 1, 30⟩ 10 5 8080 "h.example."]) =
      ([none, some { Name := "svc (Priority: 10, Weight: 5)", Version := "",
                     Host := "h.example.", Port := 8080, TTL := 30 }], none) ∧
    sampleClient.GetAllServicesDNS
        (fixture 200 "" [.other ⟨"svc.skydns.local.", 5, 1, 30⟩]) = ([none], none) := by
  decide

/-- C7: after a successful exchange, the entry for an SRV answer with owner name
`o`, priority `p`, weight `w`, port `q`, target `t` and TTL `l` is a record with
Host `t`, Port `q`, TTL `l`, an empty Version, and the Name made of `o`,
" (Priority: ", the decimal form of `p`, ", Weight: ", the decimal form of `w`
and ")". -/
theorem GetAllServicesDNS_srv_entry (env : Env) (c : Client) (resp : dns.Msg) (i : Nat)
    (o t : String) (rrtype cls l p w q : Nat)
    (h : env.Exchange (c.newRequestDNS "" dns.TypeSRV).1 c.basedns = .ok resp)
    (hi : resp.Answer[i]? = some (.SRV ⟨o, rrtype, cls, l⟩ p w q t)) :
    (c.GetAllServicesDNS env).2 = none ∧
    (c.GetAllServicesDNS env).1[i]? =
      some (some { Name := o ++ " (Priority: " ++ toString p ++ ", Weight: " ++
                     toString w ++ ")",
                   Host := t, Port := q, TTL := l, Version := "" }) := by
  rw [GetAllServicesDNS_of_exchange env c resp h]
  refine ⟨rfl, ?_⟩
  simp only [List.getElem?_map, hi, Option.map_some', answerEntry, srvService]
  simp [String.append_assoc]

theorem GetAllServicesDNS_srv_entry_witness :
    (fixture 200 "" [.SRV ⟨"svc", 33, 1, 30⟩ 10 5 8080 "h.example."]).Exchange
        (sampleClient.newRequestDNS "" dns.TypeSRV).1 sampleClient.basedns =
      .ok { Question := [], Answer := [.SRV ⟨"svc", 33, 1, 30⟩ 10 5 8080 "h.example."] } ∧
    (sampleClient.GetAllServicesDNS
      (fixture 200 "" [.SRV ⟨"svc", 33, 1, 30⟩ 10 5 8080 "h.example."])).1[0]? =
      some (some { Name := "svc (Priority: 10, Weight: 5)", Host := "h.example.",
                   Port := 8080, TTL := 30, Version := "" }) :=
  ⟨rfl,
    (GetAllServicesDNS_srv_entry
      (fixture 200 "" [.SRV ⟨"svc", 33, 1, 30⟩ 10 5 8080 "h.example."]) sampleClient
      { Question := [], Answer := [.SRV ⟨"svc", 33, 1, 30⟩ 10 5 8080 "h.example."] } 0
      "svc" "h.example." 33 1 30 10 5 8080 rfl rfl).2⟩

end PowerDNS
